import Mathlib

/-
Verification of the `BitSeq` serde wire protocol of the bitvec repository
(`src/serdes/slice.rs`): the serializer for bit-slices and the
`BitSeqVisitor` decode state machine (positional `visit_seq`, keyed
`visit_map`, and `assemble`), together with the bit-span validating
constructor described by the specification.

Conventions of the shallow embedding:
- The storage word is `u8`, so the word width is 8 bits and machine words
  are `Nat` values below 256.
- The bit-ordering policy is represented by its identity string (the value
  of `any::type_name::<O>()` in the source); where bit contents matter the
  policy's significance-to-position mapping is an arbitrary `Nat → Nat`.
- Wire values are a small universe `Value`; a keyed input stream is a list
  of `Tok` tokens (keys and values) so that consumption of tokens on error
  paths is observable.
- Fallible decoding returns `DOut`, whose `abort` constructor models the
  source's non-returning `todo!()` placeholder on the constructor-failure
  path of `assemble`.
- The target is a 64-bit platform: `usize` and `u64` coincide, and both are
  embedded as `Nat` with explicit bounds where overflow matters.
-/

/-- Field name constant: the `order` field of the `BitSeq` wire form. -/
def fOrder : String := "order"

/-- Field name constant: the `head` field of the `BitSeq` wire form. -/
def fHead : String := "head"

/-- Field name constant: the `bits` field of the `BitSeq` wire form. -/
def fBits : String := "bits"

/-- Field name constant: the `data` field of the `BitSeq` wire form. -/
def fData : String := "data"

/-- Modelled from the spec: `super::FIELDS` (declared in `serdes/mod.rs`,
which is not part of the supplied sources): the four recognized field
names of the `BitSeq` wire form, in serialization order. -/
def FIELDS : List String := [fOrder, fHead, fBits, fData]

/-- The storage word width in bits: the embedding fixes `T = u8`, so
`bits_of::<T::Mem>() = 8`. -/
def wordWidth : Nat := 8

/-- Modelled from the spec: the hard upper bound on a region's bit length
imposed by the packed bit-span descriptor encoding (`BitSpan`, not in the
supplied sources). For byte-wide storage on a 64-bit target the length
field loses 3 bits to the head index, leaving `2 ^ 61 - 1`. -/
def REGION_MAX_BITS : Nat := 2 ^ 61 - 1

/-- Modelled from the spec: the number of storage words required to cover
a region of `bits` live bits starting at head index `head`, namely
`ceil((head + bits) / 8)` for byte-wide storage words. -/
def reqWords (head bits : Nat) : Nat := (head + bits + 7) / 8

/-- A wire value, as seen by the `BitSeqVisitor`: a string, an unsigned
integer, a two-component head aggregate, a word sequence, or a unit. -/
inductive Value where
  | str (s : String)
  | num (n : Nat)
  | pair (w i : Nat)
  | bytes (l : List Nat)
  | unitv
deriving DecidableEq

/-- A token of a keyed (map) input stream: a field key or a field value.
Modelling the stream at token granularity makes the consumption of a
value on an error path observable. -/
inductive Tok where
  | key (k : String)
  | val (v : Value)
deriving DecidableEq

/-- A structured decoding error, mirroring the `serde::de::Error`
constructors the source invokes. -/
inductive DeError where
  | missingField (f : String)
  | duplicateField (f : String)
  | unknownField (f : String) (known : List String)
  | invalidType (unexp : String) (exp : String)
  | invalidLength (pos : Nat) (exp : String)
  | typeError (msg : String)
deriving DecidableEq

/-- Outcome of a decode step: a value, a recoverable decoding error, or a
process abort. `abort` models the source's `map_err(|_| todo!())` in
`BitSeqVisitor::assemble`, which panics instead of returning. -/
inductive DOut (α : Type) where
  | ok (a : α)
  | err (e : DeError)
  | abort
deriving DecidableEq

/-- The observable content of a decoded `&BitSlice<u8, O>`: the ordering
identity string of `O`, the head index, the bit count, and the backing
words reachable from the span's base pointer. -/
structure BitSlice where
  ord : String
  head : Nat
  bits : Nat
  words : List Nat
deriving DecidableEq

/-- Error message constant for a non-string `order` value. -/
def errNotStr : String := "invalid type: expected a string"

/-- Error message constant for a head aggregate whose recorded width is
not the destination word width. -/
def errHeadWidth : String := "invalid head: width does not match the destination word width"

/-- Error message constant for a non-aggregate `head` value. -/
def errNotPair : String := "invalid type: expected a head aggregate"

/-- Error message constant for a `bits` value outside the `u64` range. -/
def errNotU64 : String := "invalid value: bit count is not a u64"

/-- Error message constant for a non-integer `bits` value. -/
def errNotNum : String := "invalid type: expected an unsigned integer"

/-- Error message constant for a word outside the `u8` range. -/
def errByteRange : String := "invalid value: storage word out of range"

/-- Error message constant for a non-sequence `data` value. -/
def errNotBytes : String := "invalid type: expected a word sequence"

/-- Error message constant for a value token found where a key was
expected in a keyed stream. -/
def errKeyExpected : String := "invalid type: expected a field key"

/-- Error message constant for a keyed stream ending, or yielding a key,
where a field value was expected. -/
def errValExpected : String := "invalid input: expected a field value"

/-- Parse the `order` field's value, as `next_value::<StringTarget>()`
does: any string succeeds, anything else is a type error. -/
def parseOrder : Value → Except String String
  | .str s => .ok s
  | _ => .error errNotStr

/-- Modelled from the spec: parsing the `head` field's value into a
`BitIdx<u8>` (the `BitIdx` deserializer is not in the supplied sources).
The wire form is the aggregate `(width, index)`; the recorded width is
checked against the destination word width here, while the head-index
range check belongs to the validating constructor. -/
def parseHead : Value → Except String Nat
  | .pair w i => if w = wordWidth then .ok i else .error errHeadWidth
  | _ => .error errNotPair

/-- Parse the `bits` field's value as `next_value::<u64>()` does: an
unsigned integer below `2 ^ 64` succeeds, anything else is an error. -/
def parseBits : Value → Except String Nat
  | .num n => if n < 2 ^ 64 then .ok n else .error errNotU64
  | _ => .error errNotNum

/-- Parse the `data` field's value as deserializing a `u8` word sequence
does: a sequence whose members are all below 256 succeeds. -/
def parseData : Value → Except String (List Nat)
  | .bytes l => if l.all (· < 256) then .ok l else .error errByteRange
  | _ => .error errNotBytes

/-- Modelled from the spec: the bit-span validating constructor
(`BitSpan::new`, not in the supplied sources). Checks, in order: the head
index is within `[0, wordWidth)`; the required word count does not exceed
the supplied word-sequence length; the bit count does not exceed the
maximum representable by the packed descriptor encoding. On success it
yields the observable decoded slice. -/
inductive BitSpanError where
  | headOutOfRange
  | insufficientBuffer
  | lengthOverflow
deriving DecidableEq

/-- Modelled from the spec: the validating construction itself, consuming
the data words, head index, and bit count, exactly as the `func` closure
of the `&BitSlice<u8, O>` deserializer hands them over. -/
def bitSpanNew (ord : String) (data : List Nat) (head bits : Nat) :
    Except BitSpanError BitSlice :=
  if wordWidth ≤ head then .error .headOutOfRange
  else if data.length < reqWords head bits then .error .insufficientBuffer
  else if REGION_MAX_BITS < bits then .error .lengthOverflow
  else .ok ⟨ord, head, bits, data⟩

/-- Text constant used by the `expecting` diagnostic. -/
def expPre : String := "a `BitSlice<u"

/-- Text constant used by the `expecting` diagnostic. -/
def expMid : String := ", "

/-- Text constant used by the `expecting` diagnostic. -/
def expSuf : String := ">`"

/-- Fused literal: the diagnostic text up to and including the width for
byte-wide storage words. -/
def expPreU8 : String := "a `BitSlice<u8, "

/-- The `Visitor::expecting` diagnostic of `BitSeqVisitor`: it writes
`a BitSlice<u{width}, {order}>` (with backticks), naming the destination
word width in bits and the ordering identity. -/
def expecting (w : Nat) (ord : String) : String :=
  expPre ++ toString w ++ expMid ++ ord ++ expSuf

/-- The slot state of `BitSeqVisitor`: four optional slots, one per wire
field, all initially empty. -/
structure BitSeqVisitor where
  order : Option String
  head : Option Nat
  bits : Option Nat
  data : Option (List Nat)
deriving DecidableEq

/-- A fresh visitor, as `BitSeqVisitor::new` builds it: all slots empty. -/
def newVisitor : BitSeqVisitor := ⟨none, none, none, none⟩

/-- The `BitSeqVisitor::assemble` step: take each slot in the order
`order`, `head`, `bits`, `data`, reporting the first empty one as a
missing-field error; then compare the recorded order tag with the
expected identity, reporting a mismatch as an invalid-type error carrying
the offending tag and the `expecting` text; finally invoke the validating
constructor, whose failure the source maps through `todo!()` — an abort,
not an error. -/
def assemble (exp : String) (st : BitSeqVisitor) : DOut BitSlice :=
  match st.order with
  | none => .err (.missingField fOrder)
  | some ord =>
    match st.head with
    | none => .err (.missingField fHead)
    | some head =>
      match st.bits with
      | none => .err (.missingField fBits)
      | some bits =>
        match st.data with
        | none => .err (.missingField fData)
        | some data =>
          if ord ≠ exp then .err (.invalidType ord (expecting wordWidth exp))
          else
            match bitSpanNew exp data head bits with
            | .ok v => .ok v
            | .error _ => .abort

/-- The `BitSeqVisitor::visit_seq` step: consume exactly four elements in
the order `order`, `head`, `bits`, `data`; an exhausted input at position
`i` is an invalid-length error carrying `i` and the `expecting` text; a
type-invalid element is a type error. Returns the outcome together with
the unconsumed remainder of the input. -/
def visitSeq (exp : String) (vals : List Value) : DOut BitSlice × List Value :=
  match vals with
  | [] => (.err (.invalidLength 0 (expecting wordWidth exp)), [])
  | v0 :: r0 =>
    match parseOrder v0 with
    | .error s => (.err (.typeError s), r0)
    | .ok o =>
      match r0 with
      | [] => (.err (.invalidLength 1 (expecting wordWidth exp)), [])
      | v1 :: r1 =>
        match parseHead v1 with
        | .error s => (.err (.typeError s), r1)
        | .ok h =>
          match r1 with
          | [] => (.err (.invalidLength 2 (expecting wordWidth exp)), [])
          | v2 :: r2 =>
            match parseBits v2 with
            | .error s => (.err (.typeError s), r2)
            | .ok b =>
              match r2 with
              | [] => (.err (.invalidLength 3 (expecting wordWidth exp)), [])
              | v3 :: r3 =>
                match parseData v3 with
                | .error s => (.err (.typeError s), r3)
                | .ok d =>
                  (assemble exp ⟨some o, some h, some b, some d⟩, r3)

/-- The `BitSeqVisitor::visit_map` loop: read keys until the stream ends,
dispatching on the four recognized keys; each recognized key's value is
parsed first (`map.next_value()?`) and only then checked against the
slot's previous state (`Option::replace(..).is_some()`), so a duplicate
key errors after its value is consumed; an unrecognized key drains its
value (`let _ = map.next_value::<()>()`) and then raises an unknown-field
error naming the key and `FIELDS`. Returns the outcome and the unconsumed
remainder of the token stream. -/
def visitMapGo (exp : String) : BitSeqVisitor → List Tok → DOut BitSlice × List Tok
  | st, [] => (assemble exp st, [])
  | _, .val _ :: rest => (.err (.typeError errKeyExpected), rest)
  | _, [.key k] =>
    if k = fOrder || k = fHead || k = fBits || k = fData then
      (.err (.typeError errValExpected), [])
    else
      (.err (.unknownField k FIELDS), [])
  | _, .key k :: .key k2 :: rest =>
    if k = fOrder || k = fHead || k = fBits || k = fData then
      (.err (.typeError errValExpected), Tok.key k2 :: rest)
    else
      (.err (.unknownField k FIELDS), Tok.key k2 :: rest)
  | st, .key k :: .val v :: rest =>
    if k = fOrder then
      match parseOrder v with
      | .error s => (.err (.typeError s), rest)
      | .ok o =>
        if st.order.isSome then (.err (.duplicateField fOrder), rest)
        else visitMapGo exp { st with order := some o } rest
    else if k = fHead then
      match parseHead v with
      | .error s => (.err (.typeError s), rest)
      | .ok h =>
        if st.head.isSome then (.err (.duplicateField fHead), rest)
        else visitMapGo exp { st with head := some h } rest
    else if k = fBits then
      match parseBits v with
      | .error s => (.err (.typeError s), rest)
      | .ok b =>
        if st.bits.isSome then (.err (.duplicateField fBits), rest)
        else visitMapGo exp { st with bits := some b } rest
    else if k = fData then
      match parseData v with
      | .error s => (.err (.typeError s), rest)
      | .ok d =>
        if st.data.isSome then (.err (.duplicateField fData), rest)
        else visitMapGo exp { st with data := some d } rest
    else
      (.err (.unknownField k FIELDS), rest)

/-- The keyed decode entry point: run `visit_map` on a fresh visitor. -/
def visitMap (exp : String) (toks : List Tok) : DOut BitSlice × List Tok :=
  visitMapGo exp newVisitor toks

/-- Modelled from the spec: the serialized `data` field, produced in the
source by `self.domain()` (not in the supplied sources): the minimal word
sequence covering the region, i.e. the first `ceil((head + bits) / 8)`
backing words. -/
def domainWords (s : BitSlice) : List Nat :=
  s.words.take (reqWords s.head s.bits)

/-- The `Serialize for BitSlice` implementation: emit the four fields in
the order `order`, `head`, `bits`, `data`, with the ordering identity
string, the head aggregate `(width, index)`, the bit count as a `u64`,
and the minimal covering word sequence. -/
def serialize (s : BitSlice) : List (String × Value) :=
  [(fOrder, Value.str s.ord),
   (fHead, Value.pair wordWidth s.head),
   (fBits, Value.num s.bits),
   (fData, Value.bytes (domainWords s))]

/-- Reading live bit `i` of a slice through an ordering policy whose
significance-to-position mapping at width 8 is `pos`: bit
`pos ((head + i) % 8)` of word `(head + i) / 8`. -/
def getBit (pos : Nat → Nat) (s : BitSlice) (i : Nat) : Bool :=
  Nat.testBit (s.words.getD ((s.head + i) / wordWidth) 0)
    (pos ((s.head + i) % wordWidth))

/-- Validity of a bit-slice view: head within the word, bit count within
the descriptor bound, sufficient backing words, and words within the
storage-word range. Views are always valid by construction. -/
def wellFormed (s : BitSlice) : Prop :=
  s.head < wordWidth ∧ s.bits ≤ REGION_MAX_BITS ∧
    reqWords s.head s.bits ≤ s.words.length ∧ ∀ b ∈ s.words, b < 256

instance (s : BitSlice) : Decidable (wellFormed s) := by
  unfold wellFormed; infer_instance

/-- Ordering identity string of the least-significant-first policy. -/
def ordLsb : String := "bitvec::order::Lsb0"

/-- Ordering identity string of the most-significant-first policy. -/
def ordMsb : String := "bitvec::order::Msb0"

/-- A concrete valid view: the spec's scenario of head 1, 4 bits, one
backing byte `0b00010010`. -/
def sampleLsb : BitSlice := ⟨ordLsb, 1, 4, [18]⟩

/-- A concrete valid view whose backing buffer is one word larger than
the covered region, to exercise minimal-coverage serialization. -/
def sampleWide : BitSlice := ⟨ordLsb, 1, 4, [18, 255]⟩

/-- An unrecognized field key used in concrete instances. -/
def kUnknown : String := "unknown"

/-- An arbitrary string payload used in concrete instances. -/
def strField : String := "field"

/-- Reading an in-range position of a taken initial segment agrees with
reading the original list. -/
lemma getD_take_of_lt (l : List Nat) (r i : Nat) (h : i < r) :
    (l.take r).getD i 0 = l.getD i 0 := by
  simp [List.getD_eq_getElem?_getD, List.getElem?_take, h]

/-- C1: for every valid byte-word view (any ordering policy identity, any
head index below 8, any bit count with sufficient backing words),
decoding the serialized wire form succeeds and yields a view with the
same ordering identity, the same head index, the same bit count, and the
same bit contents under any ordering policy mapping. -/
theorem c1_roundtrip (s : BitSlice) (hw : wellFormed s) :
    ∃ s2 : BitSlice,
      visitSeq s.ord ((serialize s).map Prod.snd) = (.ok s2, []) ∧
      s2.ord = s.ord ∧ s2.head = s.head ∧ s2.bits = s.bits ∧
      ∀ pos : Nat → Nat, ∀ i < s.bits, getBit pos s2 i = getBit pos s i := by
  obtain ⟨hh, hb, hlen, hbytes⟩ := hw
  refine ⟨⟨s.ord, s.head, s.bits, domainWords s⟩, ?_, rfl, rfl, rfl, ?_⟩
  · have hb64 : s.bits < 18446744073709551616 := by
      have h := hb
      simp [REGION_MAX_BITS] at h
      omega
    have hall : (domainWords s).all (· < 256) = true := by
      rw [List.all_eq_true]
      intro x hx
      simpa using hbytes x (List.take_subset _ _ hx)
    have hdl : (domainWords s).length = reqWords s.head s.bits := by
      simp only [domainWords, List.length_take]
      omega
    have h1 : ¬ (wordWidth ≤ s.head) := Nat.not_le.mpr hh
    have h2 : ¬ ((domainWords s).length < reqWords s.head s.bits) := by
      rw [hdl]; omega
    have h3 : ¬ (REGION_MAX_BITS < s.bits) := Nat.not_lt.mpr hb
    simp [serialize, visitSeq, parseOrder, parseHead, parseBits, parseData,
      assemble, bitSpanNew, hall, h1]
    rw [if_pos hb64]
    simp [h2, h3]
  · intro pos i hi
    have hlt : (s.head + i) / wordWidth < reqWords s.head s.bits := by
      simp only [reqWords, wordWidth]
      omega
    simp only [getBit, domainWords]
    rw [getD_take_of_lt _ _ _ hlt]

/-- Witness for C1 at the spec's concrete scenario (Lsb0 identity, head
1, 4 bits, one backing byte 18). -/
theorem c1_roundtrip_witness :
    wellFormed sampleLsb ∧
    ∃ s2 : BitSlice,
      visitSeq sampleLsb.ord ((serialize sampleLsb).map Prod.snd) = (.ok s2, []) ∧
      s2.ord = sampleLsb.ord ∧ s2.head = sampleLsb.head ∧ s2.bits = sampleLsb.bits ∧
      ∀ pos : Nat → Nat, ∀ i < sampleLsb.bits, getBit pos s2 i = getBit pos sampleLsb i :=
  ⟨by decide, c1_roundtrip sampleLsb (by decide)⟩

/-- C2: evaluation at a failing input. A wire form whose head index (9)
is outside the byte word's range makes the validating constructor fail
with the head-out-of-range discriminant, but the decode path returns the
abort outcome — the source's `todo!()` placeholder — instead of a
decoding error distinguishing the three structural causes. -/
theorem c2_constructor_failure_aborts :
    bitSpanNew ordMsb [18, 0] 9 4 = .error .headOutOfRange ∧
    visitSeq ordMsb [Value.str ordMsb, Value.pair wordWidth 9, Value.num 4, Value.bytes [18, 0]]
      = (.abort, []) := ⟨rfl, rfl⟩

/-- C8: evaluation at a failing input. A `bits` value of 9 requires 2
storage words but only 1 is supplied; the validating constructor detects
the insufficient buffer, but the decode path returns the abort outcome —
the source's `todo!()` placeholder — instead of an insufficient-buffer
decoding error. -/
theorem c8_insufficient_buffer_aborts :
    reqWords 0 9 = 2 ∧
    bitSpanNew ordMsb [60] 0 9 = .error .insufficientBuffer ∧
    visitSeq ordMsb [Value.str ordMsb, Value.pair wordWidth 0, Value.num 9, Value.bytes [60]]
      = (.abort, []) := ⟨rfl, rfl, rfl⟩

/-- C3: decoding wire data whose order tag differs from the expected
ordering identity always fails with an invalid-type error carrying the
offending tag and the `expecting` diagnostic, and that diagnostic names
the destination word width (8 bits) and the ordering identity. -/
theorem c3_order_mismatch (exp tag : String) (hne : tag ≠ exp) (i b : Nat)
    (hb : b < 2 ^ 64) (d : List Nat) (hd : d.all (· < 256) = true) :
    visitSeq exp [Value.str tag, Value.pair wordWidth i, Value.num b, Value.bytes d]
      = (.err (.invalidType tag (expecting wordWidth exp)), []) ∧
    expecting wordWidth exp = expPreU8 ++ exp ++ expSuf := by
  have hbL : b < 18446744073709551616 := hb
  constructor
  · simp [visitSeq, parseOrder, parseHead, parseBits, parseData, assemble, hd, hne, hbL]
  · rfl

/-- Witness for C3: an Lsb0 tag offered where Msb0 is expected. -/
theorem c3_order_mismatch_witness :
    ordLsb ≠ ordMsb ∧ (9 : Nat) < 2 ^ 64 ∧ ([60, 165] : List Nat).all (· < 256) = true ∧
    (visitSeq ordMsb [Value.str ordLsb, Value.pair wordWidth 1, Value.num 9, Value.bytes [60, 165]]
       = (.err (.invalidType ordLsb (expecting wordWidth ordMsb)), []) ∧
     expecting wordWidth ordMsb = expPreU8 ++ ordMsb ++ expSuf) :=
  ⟨by decide, by decide, by decide,
    c3_order_mismatch ordMsb ordLsb (by decide) 1 9 (by decide) [60, 165] (by decide)⟩

/-- C4: assembly reports the first still-empty slot in the fixed order
order, head, bits, data as a missing-field error, and for each of the
four fields, keyed input omitting exactly that field fails with a
missing-field error naming exactly it. -/
theorem c4_missing_field (exp : String) (st : BitSeqVisitor) :
    (st.order = none → assemble exp st = .err (.missingField fOrder)) ∧
    (∀ o, st.order = some o → st.head = none →
      assemble exp st = .err (.missingField fHead)) ∧
    (∀ o h, st.order = some o → st.head = some h → st.bits = none →
      assemble exp st = .err (.missingField fBits)) ∧
    (∀ o h b, st.order = some o → st.head = some h → st.bits = some b → st.data = none →
      assemble exp st = .err (.missingField fData)) ∧
    visitMap exp [Tok.key fHead, Tok.val (Value.pair wordWidth 1), Tok.key fBits,
      Tok.val (Value.num 4), Tok.key fData, Tok.val (Value.bytes [18])]
      = (.err (.missingField fOrder), []) ∧
    visitMap exp [Tok.key fOrder, Tok.val (Value.str exp), Tok.key fBits,
      Tok.val (Value.num 4), Tok.key fData, Tok.val (Value.bytes [18])]
      = (.err (.missingField fHead), []) ∧
    visitMap exp [Tok.key fOrder, Tok.val (Value.str exp), Tok.key fHead,
      Tok.val (Value.pair wordWidth 1), Tok.key fData, Tok.val (Value.bytes [18])]
      = (.err (.missingField fBits), []) ∧
    visitMap exp [Tok.key fOrder, Tok.val (Value.str exp), Tok.key fHead,
      Tok.val (Value.pair wordWidth 1), Tok.key fBits, Tok.val (Value.num 4)]
      = (.err (.missingField fData), []) := by
  refine ⟨?_, ?_, ?_, ?_, rfl, rfl, rfl, rfl⟩
  · intro h1; simp [assemble, h1]
  · intro o ho hh; simp [assemble, ho, hh]
  · intro o h ho hh hb; simp [assemble, ho, hh, hb]
  · intro o h b ho hh hb hd; simp [assemble, ho, hh, hb, hd]

/-- Witness for C4 at the fresh visitor, whose first missing field is
`order`. -/
theorem c4_missing_field_witness :
    newVisitor.order = none ∧ assemble ordMsb newVisitor = .err (.missingField fOrder) :=
  ⟨rfl, (c4_missing_field ordMsb newVisitor).1 rfl⟩

/-- C5: in the keyed protocol, supplying any of the four recognized
fields twice — with the same well-formed value both times — fails with a
duplicate-field error naming that key. -/
theorem c5_duplicate_field (exp : String) :
    (∀ v o, parseOrder v = .ok o →
      visitMap exp [Tok.key fOrder, Tok.val v, Tok.key fOrder, Tok.val v]
        = (.err (.duplicateField fOrder), [])) ∧
    (∀ v h, parseHead v = .ok h →
      visitMap exp [Tok.key fHead, Tok.val v, Tok.key fHead, Tok.val v]
        = (.err (.duplicateField fHead), [])) ∧
    (∀ v b, parseBits v = .ok b →
      visitMap exp [Tok.key fBits, Tok.val v, Tok.key fBits, Tok.val v]
        = (.err (.duplicateField fBits), [])) ∧
    (∀ v d, parseData v = .ok d →
      visitMap exp [Tok.key fData, Tok.val v, Tok.key fData, Tok.val v]
        = (.err (.duplicateField fData), [])) := by
  refine ⟨?_, ?_, ?_, ?_⟩ <;> intro v x hv <;>
    simp [visitMap, visitMapGo, newVisitor, hv, fOrder, fHead, fBits, fData]

/-- Witness for C5: `bits` given twice as 10 fails with a duplicate-field
error even though the two values are identical. -/
theorem c5_duplicate_field_witness :
    parseBits (Value.num 10) = .ok 10 ∧
    visitMap ordMsb [Tok.key fBits, Tok.val (Value.num 10), Tok.key fBits, Tok.val (Value.num 10)]
      = (.err (.duplicateField fBits), []) :=
  ⟨rfl, (c5_duplicate_field ordMsb).2.2.1 (Value.num 10) 10 rfl⟩

/-- C6: in the keyed protocol, any key outside the four recognized fields
is a hard error naming that key and the recognized field set, with the
key's attached value consumed from the stream before the error is raised
(the unconsumed remainder excludes the value token). -/
theorem c6_unknown_field (exp : String) (st : BitSeqVisitor) (k : String)
    (hk : k ∉ FIELDS) (v : Value) (rest : List Tok) :
    visitMapGo exp st (Tok.key k :: Tok.val v :: rest)
      = (.err (.unknownField k FIELDS), rest) := by
  simp [FIELDS, fOrder, fHead, fBits, fData] at hk
  obtain ⟨h1, h2, h3, h4⟩ := hk
  simp [visitMapGo, FIELDS, fOrder, fHead, fBits, fData, h1, h2, h3, h4]

/-- Witness for C6 at the unrecognized key of the source's own test. -/
theorem c6_unknown_field_witness :
    kUnknown ∉ FIELDS ∧
    visitMapGo ordMsb newVisitor [Tok.key kUnknown, Tok.val (Value.str strField)]
      = (.err (.unknownField kUnknown FIELDS), []) :=
  ⟨by decide, c6_unknown_field ordMsb newVisitor kUnknown (by decide) (Value.str strField) []⟩

/-- C7: the positional protocol consumes exactly four values in the order
order, head, bits, data; input exhausted at position `i` fails with an
invalid-length error identifying `i` (0 = order, 1 = head, 2 = bits,
3 = data), so three well-formed elements fail at position 3; and a
well-formed four-element input leaves any trailing input unconsumed. -/
theorem c7_positional (exp t : String) (i b : Nat) (hb : b < 2 ^ 64)
    (d : List Nat) (hd : d.all (· < 256) = true) (rest : List Value) :
    visitSeq exp [] = (.err (.invalidLength 0 (expecting wordWidth exp)), []) ∧
    visitSeq exp [Value.str t] = (.err (.invalidLength 1 (expecting wordWidth exp)), []) ∧
    visitSeq exp [Value.str t, Value.pair wordWidth i]
      = (.err (.invalidLength 2 (expecting wordWidth exp)), []) ∧
    visitSeq exp [Value.str t, Value.pair wordWidth i, Value.num b]
      = (.err (.invalidLength 3 (expecting wordWidth exp)), []) ∧
    (visitSeq exp ([Value.str t, Value.pair wordWidth i, Value.num b, Value.bytes d] ++ rest)).2
      = rest := by
  have hbL : b < 18446744073709551616 := hb
  refine ⟨rfl, rfl, rfl, ?_, ?_⟩
  · simp [visitSeq, parseOrder, parseHead, parseBits, hbL]
  · simp [visitSeq, parseOrder, parseHead, parseBits, parseData, hbL, hd]

/-- Witness for C7: three of four elements fail identifying position 3. -/
theorem c7_positional_witness :
    (9 : Nat) < 2 ^ 64 ∧ ([60, 165] : List Nat).all (· < 256) = true ∧
    visitSeq ordMsb [Value.str ordMsb, Value.pair wordWidth 1, Value.num 9]
      = (.err (.invalidLength 3 (expecting wordWidth ordMsb)), []) :=
  ⟨by decide, by decide,
    (c7_positional ordMsb ordMsb 1 9 (by decide) [60, 165] (by decide) []).2.2.2.1⟩

/-- C9: serialization emits exactly the four fields in the order order,
head, bits, data, carrying the ordering identity string, the aggregate
(width 8, head index), the bit count (within the u64 range), and the
minimal covering word sequence: exactly `ceil((head + bits) / 8)` words,
each equal to the corresponding backing word. -/
theorem c9_serialize_fields (s : BitSlice) (hlen : reqWords s.head s.bits ≤ s.words.length)
    (hb : s.bits ≤ REGION_MAX_BITS) :
    serialize s = [(fOrder, Value.str s.ord), (fHead, Value.pair wordWidth s.head),
      (fBits, Value.num s.bits), (fData, Value.bytes (s.words.take (reqWords s.head s.bits)))] ∧
    (serialize s).map Prod.fst = FIELDS ∧
    (domainWords s).length = reqWords s.head s.bits ∧
    s.bits < 2 ^ 64 ∧
    (∀ j, j < reqWords s.head s.bits → (domainWords s).getD j 0 = s.words.getD j 0) := by
  refine ⟨rfl, rfl, ?_, ?_, ?_⟩
  · simp only [domainWords, List.length_take]
    omega
  · exact lt_of_le_of_lt hb (by norm_num [REGION_MAX_BITS])
  · intro j hj
    exact getD_take_of_lt _ _ _ hj

/-- Witness for C9 at a view whose backing buffer exceeds the covered
region by one word. -/
theorem c9_serialize_fields_witness :
    reqWords sampleWide.head sampleWide.bits ≤ sampleWide.words.length ∧
    sampleWide.bits ≤ REGION_MAX_BITS ∧
    (serialize sampleWide = [(fOrder, Value.str sampleWide.ord),
        (fHead, Value.pair wordWidth sampleWide.head), (fBits, Value.num sampleWide.bits),
        (fData, Value.bytes (sampleWide.words.take (reqWords sampleWide.head sampleWide.bits)))] ∧
      (serialize sampleWide).map Prod.fst = FIELDS ∧
      (domainWords sampleWide).length = reqWords sampleWide.head sampleWide.bits ∧
      sampleWide.bits < 2 ^ 64 ∧
      (∀ j, j < reqWords sampleWide.head sampleWide.bits →
        (domainWords sampleWide).getD j 0 = sampleWide.words.getD j 0)) :=
  ⟨by decide, by decide, c9_serialize_fields sampleWide (by decide) (by decide)⟩

/-- C10: in the keyed protocol, a repeated recognized key's value is
parsed before the duplicate check, so a type-invalid second value yields
the value-type error, not a duplicate-field error. -/
theorem c10_parse_before_duplicate (exp : String) :
    (∀ v1 v2 o m, parseOrder v1 = .ok o → parseOrder v2 = .error m →
      visitMap exp [Tok.key fOrder, Tok.val v1, Tok.key fOrder, Tok.val v2]
        = (.err (.typeError m), []) ∧ DeError.typeError m ≠ DeError.duplicateField fOrder) ∧
    (∀ v1 v2 h m, parseHead v1 = .ok h → parseHead v2 = .error m →
      visitMap exp [Tok.key fHead, Tok.val v1, Tok.key fHead, Tok.val v2]
        = (.err (.typeError m), []) ∧ DeError.typeError m ≠ DeError.duplicateField fHead) ∧
    (∀ v1 v2 b m, parseBits v1 = .ok b → parseBits v2 = .error m →
      visitMap exp [Tok.key fBits, Tok.val v1, Tok.key fBits, Tok.val v2]
        = (.err (.typeError m), []) ∧ DeError.typeError m ≠ DeError.duplicateField fBits) ∧
    (∀ v1 v2 d m, parseData v1 = .ok d → parseData v2 = .error m →
      visitMap exp [Tok.key fData, Tok.val v1, Tok.key fData, Tok.val v2]
        = (.err (.typeError m), []) ∧ DeError.typeError m ≠ DeError.duplicateField fData) := by
  refine ⟨?_, ?_, ?_, ?_⟩ <;> intro v1 v2 x m h1 h2 <;>
    exact ⟨by simp [visitMap, visitMapGo, newVisitor, h1, h2, fOrder, fHead, fBits, fData],
      by simp⟩

/-- Witness for C10: `bits` given first as 10 then as a string fails with
the value-type error of the second occurrence. -/
theorem c10_parse_before_duplicate_witness :
    parseBits (Value.num 10) = .ok 10 ∧ parseBits (Value.str strField) = .error errNotNum ∧
    (visitMap ordMsb [Tok.key fBits, Tok.val (Value.num 10), Tok.key fBits,
        Tok.val (Value.str strField)]
       = (.err (.typeError errNotNum), []) ∧
     DeError.typeError errNotNum ≠ DeError.duplicateField fBits) :=
  ⟨rfl, rfl, (c10_parse_before_duplicate ordMsb).2.2.1 (Value.num 10) (Value.str strField)
    10 errNotNum rfl rfl⟩
